import Mathlib

/-!
Verification of the core data model of `sn_data_types`: the permission
evaluation engine (`src/permissions/permissions.rs`), the CRDT-backed
Sequence object (`src/sequence/mod.rs`) and the optimistic-concurrency
guard of the sentried data types (exercised by
`src/access_control/tests.rs`).

Machine integers (`u64` indices) are modelled as `Nat`: they only ever
count history entries, which are appended one at a time, so overflow is
unreachable.  `BTreeMap::get` is modelled as association-list lookup
(`mapGet`), which is extensionally what the permission code observes.
-/

/-- Network identities (BLS public keys) are opaque; model them as `Nat`. -/
abbrev PublicKey := Nat

/-- An entry payload is an opaque byte vector (`Vec<u8>`). -/
abbrev Entry := List Nat

/-- Error kinds used by the data layer (spec section 7 taxonomy together
with the concrete kinds appearing in `sequence/mod.rs` and the
`access_control` tests). -/
inductive Error where
  | AccessDenied
  | NoSuchEntry
  | NoSuchData
  | InvalidOwners
  | InvalidOperation
  | InvalidExpectedIndex
  deriving DecidableEq, Repr

/-- Lookup in a `BTreeMap`, modelled as first-match association-list
lookup (the permission code only ever calls `.get`). -/
def mapGet {α β : Type} [DecidableEq α] (k : α) : List (α × β) → Option β
  | [] => none
  | (k2, v) :: xs => if k = k2 then some v else mapGet k xs

namespace AC

/-- From `permissions.rs`: hard-erasure sub-commands. -/
inductive HardErasureCmd where
  | HardUpdate
  | HardDelete
  deriving DecidableEq, Repr

/-- From `permissions.rs`: sequence write capabilities modifiable via
permission changes. -/
inductive SequenceWrite where
  | Append
  | HardErasure (c : HardErasureCmd)
  | ModifyPermissions
  deriving DecidableEq, Repr

/-- From `permissions.rs`: modifiable sequence permissions. -/
inductive ModifyableSequencePermissions where
  | ReadData
  | ReadOwners
  | ReadPermissions
  | Write (w : SequenceWrite)
  deriving DecidableEq, Repr

/-- From `permissions.rs`: commands on a Sequence. -/
inductive SequenceCmd where
  | Append
  | HardErasure (c : HardErasureCmd)
  | ModifyPermissions (m : ModifyableSequencePermissions)
  deriving DecidableEq, Repr

/-- From `permissions.rs`: map write capabilities. -/
inductive MapWrite where
  | Insert
  | Update
  | Delete
  | HardErasure (c : HardErasureCmd)
  | ModifyPermissions
  deriving DecidableEq, Repr

/-- From `permissions.rs`: modifiable map permissions. -/
inductive ModifyableMapPermissions where
  | ReadData
  | ReadOwners
  | ReadPermissions
  | Write (w : MapWrite)
  deriving DecidableEq, Repr

/-- From `permissions.rs`: commands on a Map. -/
inductive MapCmd where
  | Insert
  | Update
  | Delete
  | HardErasure (c : HardErasureCmd)
  | ModifyPermissions (m : ModifyableMapPermissions)
  deriving DecidableEq, Repr

/-- From `permissions.rs`: commands, always mutating unless rejected. -/
inductive CmdType where
  | Map (c : MapCmd)
  | Sequence (c : SequenceCmd)
  deriving DecidableEq, Repr

/-- From `permissions.rs`: read queries on a Map. -/
inductive MapQuery where
  | ReadData
  | ReadOwners
  | ReadPermissions
  deriving DecidableEq, Repr

/-- From `permissions.rs`: read queries on a Sequence. -/
inductive SequenceQuery where
  | ReadData
  | ReadOwners
  | ReadPermissions
  deriving DecidableEq, Repr

/-- From `permissions.rs`: queries, never mutating. -/
inductive QueryType where
  | Map (q : MapQuery)
  | Sequence (q : SequenceQuery)
  deriving DecidableEq, Repr

/-- From `permissions.rs`: a request is a command or a query. -/
inductive Request where
  | Cmd (c : CmdType)
  | Query (q : QueryType)
  deriving DecidableEq, Repr

/-- From `shared_data.rs` (declared by the tests): a user is a concrete
key or the wildcard. -/
inductive User where
  | Anyone
  | Specific (k : PublicKey)
  deriving DecidableEq, Repr

/-- From `permissions.rs`: per-request allow map of one private user. -/
structure PrivatePermissionSet where
  permissions : List (Request × Bool)
  deriving DecidableEq, Repr

/-- `PrivatePermissionSet::is_permitted`: only an explicit `true` grants. -/
def PrivatePermissionSet.is_permitted (s : PrivatePermissionSet) (request : Request) : Bool :=
  match mapGet request s.permissions with
  | some true => true
  | _ => false

/-- From `permissions.rs`: per-request flag map of one public user. -/
structure PublicPermissionSet where
  permissions : List (Request × Bool)
  deriving DecidableEq, Repr

/-- `PublicPermissionSet::is_permitted`: queries are always allowed on
public data; otherwise the stored flag, `none` meaning fall through to
the `Anyone` entry. -/
def PublicPermissionSet.is_permitted (s : PublicPermissionSet) (request : Request) : Option Bool :=
  match request with
  | Request.Query _ => some true
  | _ =>
    match mapGet request s.permissions with
    | some true => some true
    | some false => some false
    | none => none

/-- From `permissions.rs`: a private permission snapshot. -/
structure PrivatePermissions where
  permissions : List (PublicKey × PrivatePermissionSet)
  expected_data_index : Nat
  expected_owners_index : Nat
  deriving DecidableEq, Repr

/-- `PrivatePermissions::is_permitted` (`Permissions` impl). -/
def PrivatePermissions.is_permitted (p : PrivatePermissions) (user : PublicKey)
    (request : Request) : Bool :=
  match mapGet user p.permissions with
  | some permissions => permissions.is_permitted request
  | none => false

/-- From `permissions.rs`: a public permission snapshot. -/
structure PublicPermissions where
  permissions : List (User × PublicPermissionSet)
  expected_data_index : Nat
  expected_owners_index : Nat
  deriving DecidableEq, Repr

/-- `PublicPermissions::is_permitted_`: lookup of one user entry. -/
def PublicPermissions.is_permitted_ (p : PublicPermissions) (user : User)
    (request : Request) : Option Bool :=
  match mapGet user p.permissions with
  | some permissions =>
    match permissions.is_permitted request with
    | some true => some true
    | some false => some false
    | none => none
  | none => none

/-- `PublicPermissions::is_permitted` (`Permissions` impl): the concrete
entry is authoritative, the `Anyone` entry is the fallback, absence
denies. -/
def PublicPermissions.is_permitted (p : PublicPermissions) (user : PublicKey)
    (request : Request) : Bool :=
  match p.is_permitted_ (User.Specific user) request with
  | some true => true
  | some false => false
  | none =>
    match p.is_permitted_ User.Anyone request with
    | some true => true
    | _ => false

/-- From `shared_data.rs` (declared by the tests): an owner snapshot with
the expected indices observed at authorship time. -/
structure Owner where
  public_key : PublicKey
  expected_data_index : Nat
  expected_permissions_index : Nat
  deriving DecidableEq, Repr

/-- Modelled from the spec: the sentried `Sequence` of the missing
`shared_data.rs`/`sequence.rs`, the composite object binding the data,
permission and owner histories (spec sections 3 and 4.2).  Only the
parts exercised by the concurrency-guard claim are modelled. -/
structure PrivateSentriedSequence where
  data : List Entry
  permissions : List PrivatePermissions
  owners : List Owner
  deriving DecidableEq, Repr

/-- Modelled from the spec: `set_permissions(snapshot, expected_index)`
of the missing `shared_data.rs` (spec section 4.4): the snapshot's
`expected_data_index` and `expected_owners_index` must equal the current
data and owner history lengths, and the supplied expected index must
equal the current permission history length; a mismatch rejects with the
invalid-expected-index error, emits nothing and leaves the object
unchanged (the returned state is the input state). -/
def PrivateSentriedSequence.set_permissions (s : PrivateSentriedSequence)
    (p : PrivatePermissions) (index : Nat) :
    Except Error Unit × PrivateSentriedSequence :=
  if p.expected_data_index = s.data.length ∧
      p.expected_owners_index = s.owners.length ∧
      index = s.permissions.length then
    (Except.ok (), { s with permissions := s.permissions ++ [p] })
  else
    (Except.error Error.InvalidExpectedIndex, s)

/-- Modelled from the spec: `set_owner(snapshot, expected_index)` of the
missing `shared_data.rs` (spec section 4.4): the snapshot's
`expected_data_index` and `expected_permissions_index` must equal the
current data and permission history lengths, and the supplied expected
index must equal the current owner history length. -/
def PrivateSentriedSequence.set_owner (s : PrivateSentriedSequence)
    (o : Owner) (index : Nat) :
    Except Error Unit × PrivateSentriedSequence :=
  if o.expected_data_index = s.data.length ∧
      o.expected_permissions_index = s.permissions.length ∧
      index = s.owners.length then
    (Except.ok (), { s with owners := s.owners ++ [o] })
  else
    (Except.error Error.InvalidExpectedIndex, s)

end AC

namespace SEQ

/-- Modelled from the spec: the action categories of the missing
`metadata.rs` (`Action::Read` is named explicitly by
`sequence/mod.rs`; the other two are the write categories of spec
section 4.3). -/
inductive Action where
  | Read
  | Append
  | ManagePermissions
  deriving DecidableEq, Repr

/-- Modelled from the spec: the `User` of the missing `metadata.rs`
(concrete key or the `Anyone` wildcard). -/
inductive User where
  | Anyone
  | Key (k : PublicKey)
  deriving DecidableEq, Repr

/-- Modelled from the spec: `PubUserPermissions` of the missing
`metadata.rs`: per-action flag, unset meaning fall through (spec
section 3, public permission set). -/
structure PubUserPermissions where
  append : Option Bool
  manage_permissions : Option Bool
  deriving DecidableEq, Repr

/-- Read is always allowed on public data; other actions return the
stored flag. -/
def PubUserPermissions.is_allowed (p : PubUserPermissions) (action : Action) : Option Bool :=
  match action with
  | Action.Read => some true
  | Action.Append => p.append
  | Action.ManagePermissions => p.manage_permissions

/-- Modelled from the spec: `PrivUserPermissions` of the missing
`metadata.rs`: explicit allow/deny per action. -/
structure PrivUserPermissions where
  read : Bool
  append : Bool
  manage_permissions : Bool
  deriving DecidableEq, Repr

/-- Stored flag of one private user for one action. -/
def PrivUserPermissions.is_allowed (p : PrivUserPermissions) (action : Action) : Bool :=
  match action with
  | Action.Read => p.read
  | Action.Append => p.append
  | Action.ManagePermissions => p.manage_permissions

/-- From `sequence/mod.rs` (fields built by `set_pub_permissions`): a
public permission snapshot with the history indices current at
authorship. -/
structure PublicPermissions where
  entries_index : Nat
  owners_index : Nat
  permissions : List (User × PubUserPermissions)
  deriving DecidableEq, Repr

/-- Lookup of one user's flag for one action in a public snapshot. -/
def PublicPermissions.is_allowed_by (p : PublicPermissions) (user : User)
    (action : Action) : Option Bool :=
  match mapGet user p.permissions with
  | some up => up.is_allowed action
  | none => none

/-- Modelled from the spec: the `Perm::is_action_allowed` impl of the
missing `metadata.rs` for public data (spec section 4.3 step 3: the
concrete entry is authoritative, then the wildcard, else deny). -/
def PublicPermissions.is_action_allowed (p : PublicPermissions) (requester : PublicKey)
    (action : Action) : Except Error Unit :=
  match p.is_allowed_by (User.Key requester) action with
  | some true => Except.ok ()
  | some false => Except.error Error.AccessDenied
  | none =>
    match p.is_allowed_by User.Anyone action with
    | some true => Except.ok ()
    | _ => Except.error Error.AccessDenied

/-- From `sequence/mod.rs` (fields built by `set_private_permissions`): a
private permission snapshot. -/
structure PrivatePermissions where
  entries_index : Nat
  owners_index : Nat
  permissions : List (PublicKey × PrivUserPermissions)
  deriving DecidableEq, Repr

/-- Modelled from the spec: the `Perm::is_action_allowed` impl of the
missing `metadata.rs` for private data (spec section 4.3 step 3: direct
lookup, deny if absent or the flag is false). -/
def PrivatePermissions.is_action_allowed (p : PrivatePermissions) (requester : PublicKey)
    (action : Action) : Except Error Unit :=
  match mapGet requester p.permissions with
  | some up =>
    if up.is_allowed action then Except.ok () else Except.error Error.AccessDenied
  | none => Except.error Error.AccessDenied

/-- Modelled from the spec: the `Owner` of the missing `metadata.rs`
(public key plus the indices current when the ownership changed). -/
structure Owner where
  public_key : PublicKey
  entries_index : Nat
  permissions_index : Nat
  deriving DecidableEq, Repr

/-- From `metadata.rs` (missing; shape fixed by the spec, section 3): an
absolute index or an offset counted back from the end. -/
inductive Index where
  | FromStart (i : Nat)
  | FromEnd (i : Nat)
  deriving DecidableEq, Repr

/-- Resolve an `Index` against a list: `FromEnd i` denotes position
`length - i`, out of range yields `none`. -/
def listGetIdx {α : Type} (l : List α) : Index → Option α
  | Index.FromStart i => l.get? i
  | Index.FromEnd i => if i ≤ l.length then l.get? (l.length - i) else none

/-- Kind of an address: public or private visibility. -/
inductive Kind where
  | Public
  | Private
  deriving DecidableEq, Repr

/-- From `metadata.rs` (missing; shape fixed by `sequence/mod.rs`
constructors): a network address with visibility kind, name and tag. -/
inductive Address where
  | Public (name : Nat) (tag : Nat)
  | Private (name : Nat) (tag : Nat)
  deriving DecidableEq, Repr

/-- Visibility kind of an address. -/
def Address.kind : Address → Kind
  | Address.Public _ _ => Kind.Public
  | Address.Private _ _ => Kind.Private

/-- Modelled from the spec: a causal operation of the missing
`seq_crdt.rs` (spec section 4.1): tagged with the authoring actor and
its per-actor counter; inserts carry the value. -/
inductive Op (α : Type) where
  | Insert (actor : PublicKey) (counter : Nat) (value : α)
  | Delete (actor : PublicKey) (counter : Nat)
  deriving DecidableEq, Repr

/-- The (actor, counter) identity of an insert operation, `none` for a
delete. -/
def Op.insId {α : Type} : Op α → Option (Nat × Nat)
  | Op.Insert actor counter _ => some (counter, actor)
  | Op.Delete _ _ => none

/-- An element of a versioned history: a value tagged with its causal
metadata. -/
structure Tagged (α : Type) where
  actor : PublicKey
  counter : Nat
  value : α
  deriving DecidableEq, Repr

/-- The merge key of a tagged element: counter first, actor as the
deterministic tie-break (spec section 4.1). -/
def tagId {α : Type} (t : Tagged α) : Nat × Nat := (t.counter, t.actor)

/-- Strict lexicographic order on merge keys. -/
def idLt (p q : Nat × Nat) : Prop := p.1 < q.1 ∨ (p.1 = q.1 ∧ p.2 < q.2)

instance idLt.decidable (p q : Nat × Nat) : Decidable (idLt p q) := by
  unfold idLt
  exact inferInstance

/-- Modelled from the spec: deterministic merge insertion of the missing
`seq_crdt.rs` (spec section 4.1): elements are kept in the deterministic
total order of their merge keys; re-delivery of an already present
(actor, counter) pair is a no-op. -/
def insertTagged {α : Type} (o : Tagged α) : List (Tagged α) → List (Tagged α)
  | [] => [o]
  | x :: xs =>
    if tagId o = tagId x then x :: xs
    else if idLt (tagId o) (tagId x) then o :: x :: xs
    else x :: insertTagged o xs

/-- Modelled from the spec: application of one causal operation to a
versioned history.  The history is append-only (spec section 3: past
entries are never edited or deleted), so a delete operation leaves it
unchanged. -/
def applyOp {α : Type} (op : Op α) (h : List (Tagged α)) : List (Tagged α) :=
  match op with
  | Op.Insert actor counter v => insertTagged ⟨actor, counter, v⟩ h
  | Op.Delete _ _ => h

/-- The plain sequence of values stored in a history. -/
def seqOf {α : Type} (h : List (Tagged α)) : List α := h.map Tagged.value

/-- Modelled from the spec: the `SequenceCrdt` of the missing
`seq_crdt.rs`: three versioned histories (entries, permission snapshots,
owner snapshots) under one address, with the local actor used for causal
tagging. -/
structure SequenceCrdt (P : Type) where
  actor : PublicKey
  address : Address
  entries : List (Tagged Entry)
  perms : List (Tagged P)
  owners : List (Tagged Owner)
  deriving DecidableEq, Repr

/-- A freshly created object: all three histories empty. -/
def SequenceCrdt.new {P : Type} (actor : PublicKey) (address : Address) : SequenceCrdt P :=
  ⟨actor, address, [], [], []⟩

/-- Length of the entry history (`entries_index`). -/
def SequenceCrdt.entries_index {P : Type} (c : SequenceCrdt P) : Nat := c.entries.length

/-- Length of the permission history (`permissions_index`). -/
def SequenceCrdt.permissions_index {P : Type} (c : SequenceCrdt P) : Nat := c.perms.length

/-- Length of the owner history (`owners_index`). -/
def SequenceCrdt.owners_index {P : Type} (c : SequenceCrdt P) : Nat := c.owners.length

/-- Point lookup in the permission history. -/
def SequenceCrdt.permissions {P : Type} (c : SequenceCrdt P) (i : Index) : Option P :=
  listGetIdx (seqOf c.perms) i

/-- Point lookup in the owner history. -/
def SequenceCrdt.owner {P : Type} (c : SequenceCrdt P) (i : Index) : Option Owner :=
  listGetIdx (seqOf c.owners) i

/-- Point lookup in the entry history. -/
def SequenceCrdt.get {P : Type} (c : SequenceCrdt P) (i : Index) : Option Entry :=
  listGetIdx (seqOf c.entries) i

/-- Modelled from the spec: `check_is_last_owner` of the missing
`seq_crdt.rs`, behaviour fixed by the doc comment in `sequence/mod.rs`
(lines 299-310): `Ok` if the requester is the last owner,
`InvalidOwners` if there is no last owner, `AccessDenied` otherwise. -/
def SequenceCrdt.check_is_last_owner {P : Type} (c : SequenceCrdt P)
    (requester : PublicKey) : Except Error Unit :=
  match c.owner (Index.FromEnd 1) with
  | some o => if o.public_key = requester then Except.ok () else Except.error Error.AccessDenied
  | none => Except.error Error.InvalidOwners

/-- Merge application of an entry operation. -/
def SequenceCrdt.apply_crdt_op {P : Type} (c : SequenceCrdt P) (op : Op Entry) :
    SequenceCrdt P :=
  { c with entries := applyOp op c.entries }

/-- Merge application of a permission operation. -/
def SequenceCrdt.apply_crdt_perms_op {P : Type} (c : SequenceCrdt P) (op : Op P) :
    SequenceCrdt P :=
  { c with perms := applyOp op c.perms }

/-- Merge application of an owner operation. -/
def SequenceCrdt.apply_crdt_owner_op {P : Type} (c : SequenceCrdt P) (op : Op Owner) :
    SequenceCrdt P :=
  { c with owners := applyOp op c.owners }

/-- From `sequence/mod.rs`: the Sequence object, a public or private
CRDT. -/
inductive Data where
  | Public (data : SequenceCrdt PublicPermissions)
  | Private (data : SequenceCrdt PrivatePermissions)
  deriving DecidableEq, Repr

/-- `Data::new_pub`. -/
def Data.new_pub (actor : PublicKey) (name : Nat) (tag : Nat) : Data :=
  Data.Public (SequenceCrdt.new actor (Address.Public name tag))

/-- `Data::new_private`. -/
def Data.new_private (actor : PublicKey) (name : Nat) (tag : Nat) : Data :=
  Data.Private (SequenceCrdt.new actor (Address.Private name tag))

/-- `Data::address`. -/
def Data.address : Data → Address
  | Data.Public data => data.address
  | Data.Private data => data.address

/-- `Data::kind`. -/
def Data.kind (d : Data) : Kind := d.address.kind

/-- `Data::is_pub`. -/
def Data.is_pub (d : Data) : Bool :=
  match d.kind with
  | Kind.Public => true
  | Kind.Private => false

/-- Whether the object is the `Data::Public` variant (for objects built
by the constructors this coincides with `is_pub`, which goes through the
address kind). -/
def Data.isPublicVariant : Data → Bool
  | Data.Public _ => true
  | Data.Private _ => false

/-- `Data::entries_index`. -/
def Data.entries_index : Data → Nat
  | Data.Public data => data.entries_index
  | Data.Private data => data.entries_index

/-- `Data::permissions_index`. -/
def Data.permissions_index : Data → Nat
  | Data.Public data => data.permissions_index
  | Data.Private data => data.permissions_index

/-- `Data::owners_index`. -/
def Data.owners_index : Data → Nat
  | Data.Public data => data.owners_index
  | Data.Private data => data.owners_index

/-- `Data::get`. -/
def Data.get (d : Data) (i : Index) : Option Entry :=
  match d with
  | Data.Public data => data.get i
  | Data.Private data => data.get i

/-- `Data::owner`. -/
def Data.owner (d : Data) (i : Index) : Option Owner :=
  match d with
  | Data.Public data => data.owner i
  | Data.Private data => data.owner i

/-- `Data::check_is_last_owner`. -/
def Data.check_is_last_owner (d : Data) (requester : PublicKey) : Except Error Unit :=
  match d with
  | Data.Public data => data.check_is_last_owner requester
  | Data.Private data => data.check_is_last_owner requester

/-- The `check_perm!` macro of `Data::check_permission`, expanded at the
public variant: owner check first, its error discarded in favour of
evaluating the latest permission snapshot, absence of which denies. -/
def checkPermPub (data : SequenceCrdt PublicPermissions) (requester : PublicKey)
    (action : Action) : Except Error Unit :=
  match data.check_is_last_owner requester with
  | Except.ok _ => Except.ok ()
  | Except.error _ =>
    match data.permissions (Index.FromEnd 1) with
    | none => Except.error Error.AccessDenied
    | some p => p.is_action_allowed requester action

/-- The `check_perm!` macro of `Data::check_permission`, expanded at the
private variant. -/
def checkPermPriv (data : SequenceCrdt PrivatePermissions) (requester : PublicKey)
    (action : Action) : Except Error Unit :=
  match data.check_is_last_owner requester with
  | Except.ok _ => Except.ok ()
  | Except.error _ =>
    match data.permissions (Index.FromEnd 1) with
    | none => Except.error Error.AccessDenied
    | some p => p.is_action_allowed requester action

/-- `Data::check_permission` (`sequence/mod.rs` lines 117-138). -/
def Data.check_permission (d : Data) (action : Action) (requester : PublicKey) :
    Except Error Unit :=
  match d with
  | Data.Public data =>
    if action = Action.Read then Except.ok ()
    else checkPermPub data requester action
  | Data.Private data => checkPermPriv data requester action

/-- `Data::apply_crdt_op`: merge application of an entry operation,
returning no result. -/
def Data.apply_crdt_op (d : Data) (op : Op Entry) : Data :=
  match d with
  | Data.Public data => Data.Public (data.apply_crdt_op op)
  | Data.Private data => Data.Private (data.apply_crdt_op op)

/-- `Data::apply_crdt_pub_perms_op`: only an insert operation on a
public object is applied; anything else is an invalid operation. -/
def Data.apply_crdt_pub_perms_op (d : Data) (op : Op PublicPermissions) :
    Except Error Data :=
  match d, op with
  | Data.Public data, Op.Insert actor counter v =>
    Except.ok (Data.Public (data.apply_crdt_perms_op (Op.Insert actor counter v)))
  | _, _ => Except.error Error.InvalidOperation

/-- `Data::apply_crdt_private_perms_op`: applied on a private object,
invalid on a public one. -/
def Data.apply_crdt_private_perms_op (d : Data) (op : Op PrivatePermissions) :
    Except Error Data :=
  match d with
  | Data.Private data => Except.ok (Data.Private (data.apply_crdt_perms_op op))
  | Data.Public _ => Except.error Error.InvalidOperation

/-- `Data::apply_crdt_owner_op`: merge application of an owner
operation, returning no result. -/
def Data.apply_crdt_owner_op (d : Data) (op : Op Owner) : Data :=
  match d with
  | Data.Public data => Data.Public (data.apply_crdt_owner_op op)
  | Data.Private data => Data.Private (data.apply_crdt_owner_op op)

/-- `Data::pub_permissions` (`sequence/mod.rs` lines 330-337). -/
def Data.pub_permissions (d : Data) (i : Index) : Except Error PublicPermissions :=
  match d with
  | Data.Public data =>
    match data.permissions i with
    | some p => Except.ok p
    | none => Except.error Error.NoSuchEntry
  | Data.Private _ => Except.error Error.InvalidOperation

/-- `Data::private_permissions` (`sequence/mod.rs` lines 339-346). -/
def Data.private_permissions (d : Data) (i : Index) : Except Error PrivatePermissions :=
  match d with
  | Data.Private data =>
    match data.permissions i with
    | some p => Except.ok p
    | none => Except.error Error.NoSuchEntry
  | Data.Public _ => Except.error Error.InvalidOperation

/-- A remote operation on some history of a Sequence replica, the unit
of delivery for convergence. -/
inductive ROp where
  | entry (op : Op Entry)
  | pubPerms (op : Op PublicPermissions)
  | privPerms (op : Op PrivatePermissions)
  | owner (op : Op Owner)
  deriving DecidableEq, Repr

/-- The causal identity of a remote operation: target history tag plus
the (counter, actor) pair; `none` for deletes. -/
def ROp.rid : ROp → Option (Nat × Nat × Nat)
  | ROp.entry op => op.insId.map (fun p => (0, p))
  | ROp.pubPerms op => op.insId.map (fun p => (1, p))
  | ROp.privPerms op => op.insId.map (fun p => (2, p))
  | ROp.owner op => op.insId.map (fun p => (3, p))

/-- The replica state after delivering one remote operation through the
`Data` apply functions; a rejected permission operation leaves the
replica unchanged (the Rust functions take `&mut self` and do not touch
it on the error path). -/
def Data.applyR (d : Data) : ROp → Data
  | ROp.entry op => d.apply_crdt_op op
  | ROp.pubPerms op =>
    match d.apply_crdt_pub_perms_op op with
    | Except.ok d2 => d2
    | Except.error _ => d
  | ROp.privPerms op =>
    match d.apply_crdt_private_perms_op op with
    | Except.ok d2 => d2
    | Except.error _ => d
  | ROp.owner op => d.apply_crdt_owner_op op

/-- The replica state after delivering a list of remote operations in
order. -/
def Data.applyAll (d : Data) (l : List ROp) : Data := l.foldl Data.applyR d

/-- A delivered operation set is causally well-formed when two
operations with the same causal identity are the same operation (each
actor numbers its operations uniquely). -/
def ridUniq (l : List ROp) : Prop :=
  ∀ a ∈ l, ∀ b ∈ l, a.rid = b.rid → a.rid ≠ none → a = b

theorem idLt_asymm {p q : Nat × Nat} (h : idLt p q) : ¬ idLt q p := by
  unfold idLt at *
  omega

theorem idLt_trans {p q r : Nat × Nat} (h1 : idLt p q) (h2 : idLt q r) : idLt p r := by
  unfold idLt at *
  omega

theorem idLt_total : ∀ {p q : Nat × Nat}, p ≠ q → idLt p q ∨ idLt q p := by
  rintro ⟨p1, p2⟩ ⟨q1, q2⟩ h
  unfold idLt
  dsimp only
  by_cases h1 : p1 = q1
  · subst h1
    have h2 : p2 ≠ q2 := fun hh => h (by rw [hh])
    omega
  · omega

theorem insertTagged_idem {α : Type} (o : Tagged α) (l : List (Tagged α)) :
    insertTagged o (insertTagged o l) = insertTagged o l := by
  induction l with
  | nil => simp [insertTagged]
  | cons x xs ih =>
    by_cases h1 : tagId o = tagId x
    · simp [insertTagged, h1]
    · by_cases h2 : idLt (tagId o) (tagId x)
      · simp [insertTagged, h1, h2]
      · simp [insertTagged, h1, h2, ih]

theorem insertTagged_comm {α : Type} (a b : Tagged α) (hab : tagId a ≠ tagId b) :
    ∀ l : List (Tagged α),
      insertTagged a (insertTagged b l) = insertTagged b (insertTagged a l) := by
  have hba : tagId b ≠ tagId a := Ne.symm hab
  intro l
  induction l with
  | nil =>
    rcases idLt_total hab with h | h
    · simp [insertTagged, hab, hba, h, idLt_asymm h]
    · simp [insertTagged, hab, hba, h, idLt_asymm h]
  | cons x xs ih =>
    by_cases hbx : tagId b = tagId x
    · have hax : tagId a ≠ tagId x := fun hh => hab (hh.trans hbx.symm)
      have hxa : tagId x ≠ tagId a := Ne.symm hax
      have hIb : insertTagged b (x :: xs) = x :: xs := by simp [insertTagged, hbx]
      by_cases hlax : idLt (tagId a) (tagId x)
      · have hIa : insertTagged a (x :: xs) = a :: x :: xs := by
          simp [insertTagged, hax, hlax]
        have hIba : insertTagged b (a :: x :: xs) = a :: x :: xs := by
          simp [insertTagged, hba, hbx, hxa, idLt_asymm hlax]
        rw [hIb, hIa, hIba]
      · have hIa : insertTagged a (x :: xs) = x :: insertTagged a xs := by
          simp [insertTagged, hax, hlax]
        have hIba : insertTagged b (x :: insertTagged a xs) = x :: insertTagged a xs := by
          simp [insertTagged, hbx]
        rw [hIb, hIa, hIba]
    · have hxb : tagId x ≠ tagId b := fun hh => hbx hh.symm
      by_cases hlbx : idLt (tagId b) (tagId x)
      · have hIb : insertTagged b (x :: xs) = b :: x :: xs := by
          simp [insertTagged, hbx, hlbx]
        by_cases halb : idLt (tagId a) (tagId b)
        · have hlax : idLt (tagId a) (tagId x) := idLt_trans halb hlbx
          have hax : tagId a ≠ tagId x := by
            intro hh
            rw [hh] at halb
            exact idLt_asymm hlbx halb
          have hIa : insertTagged a (x :: xs) = a :: x :: xs := by
            simp [insertTagged, hax, hlax]
          have hL : insertTagged a (b :: x :: xs) = a :: b :: x :: xs := by
            simp [insertTagged, hab, halb]
          have hR : insertTagged b (a :: x :: xs) = a :: b :: x :: xs := by
            simp [insertTagged, hba, idLt_asymm halb, hbx, hlbx]
          rw [hIb, hIa, hL, hR]
        · have hlba : idLt (tagId b) (tagId a) := by
            rcases idLt_total hab with h | h
            · exact absurd h halb
            · exact h
          have hL : insertTagged a (b :: x :: xs) = b :: insertTagged a (x :: xs) := by
            simp [insertTagged, hab, halb]
          by_cases hax : tagId a = tagId x
          · have hIa : insertTagged a (x :: xs) = x :: xs := by
              simp [insertTagged, hax]
            rw [hIb, hIa, hL, hIa, hIb]
          · by_cases hlax : idLt (tagId a) (tagId x)
            · have hIa : insertTagged a (x :: xs) = a :: x :: xs := by
                simp [insertTagged, hax, hlax]
              have hR : insertTagged b (a :: x :: xs) = b :: a :: x :: xs := by
                simp [insertTagged, hba, hlba]
              rw [hIb, hIa, hL, hIa, hR]
            · have hIa : insertTagged a (x :: xs) = x :: insertTagged a xs := by
                simp [insertTagged, hax, hlax]
              have hR : insertTagged b (x :: insertTagged a xs) = b :: x :: insertTagged a xs := by
                simp [insertTagged, hbx, hlbx]
              rw [hIb, hIa, hL, hIa, hR]
      · have hlxb : idLt (tagId x) (tagId b) := by
          rcases idLt_total hxb with h | h
          · exact h
          · exact absurd h hlbx
        have hIb : insertTagged b (x :: xs) = x :: insertTagged b xs := by
          simp [insertTagged, hbx, hlbx]
        by_cases hax : tagId a = tagId x
        · have hL : insertTagged a (x :: insertTagged b xs) = x :: insertTagged b xs := by
            simp [insertTagged, hax]
          have hIa : insertTagged a (x :: xs) = x :: xs := by
            simp [insertTagged, hax]
          rw [hIb, hL, hIa, hIb]
        · by_cases hlax : idLt (tagId a) (tagId x)
          · have hL : insertTagged a (x :: insertTagged b xs) = a :: x :: insertTagged b xs := by
              simp [insertTagged, hax, hlax]
            have hIa : insertTagged a (x :: xs) = a :: x :: xs := by
              simp [insertTagged, hax, hlax]
            have hnba : ¬ idLt (tagId b) (tagId a) := by
              intro hh
              exact hlbx (idLt_trans hh hlax)
            have hR : insertTagged b (a :: x :: xs) = a :: insertTagged b (x :: xs) := by
              simp [insertTagged, hba, hnba]
            rw [hIb, hL, hIa, hR, hIb]
          · have hL : insertTagged a (x :: insertTagged b xs) =
                x :: insertTagged a (insertTagged b xs) := by
              simp [insertTagged, hax, hlax]
            have hIa : insertTagged a (x :: xs) = x :: insertTagged a xs := by
              simp [insertTagged, hax, hlax]
            have hR : insertTagged b (x :: insertTagged a xs) =
                x :: insertTagged b (insertTagged a xs) := by
              simp [insertTagged, hbx, hlbx]
            rw [hIb, hL, hIa, hR, ih]

theorem applyOp_idem {α : Type} (op : Op α) (h : List (Tagged α)) :
    applyOp op (applyOp op h) = applyOp op h := by
  cases op with
  | Insert a c v => exact insertTagged_idem _ _
  | Delete a c => rfl

theorem applyOp_comm {α : Type} (o1 o2 : Op α) (h : o1.insId ≠ o2.insId)
    (l : List (Tagged α)) :
    applyOp o1 (applyOp o2 l) = applyOp o2 (applyOp o1 l) := by
  cases o1 with
  | Delete a1 c1 => cases o2 <;> rfl
  | Insert a1 c1 v1 =>
    cases o2 with
    | Delete a2 c2 => rfl
    | Insert a2 c2 v2 =>
      have hid : tagId (Tagged.mk a1 c1 v1) ≠ tagId (Tagged.mk a2 c2 v2) := by
        simp only [Op.insId, ne_eq, Option.some.injEq] at h
        simp only [tagId, ne_eq]
        intro hc
        exact h hc
      exact insertTagged_comm _ _ hid l

theorem applyR_rid_none (d : Data) (op : ROp) (h : op.rid = none) :
    d.applyR op = d := by
  cases op with
  | entry o =>
    cases o with
    | Insert a c v => simp [ROp.rid, Op.insId] at h
    | Delete a c => cases d <;> rfl
  | pubPerms o =>
    cases o with
    | Insert a c v => simp [ROp.rid, Op.insId] at h
    | Delete a c => cases d <;> rfl
  | privPerms o =>
    cases o with
    | Insert a c v => simp [ROp.rid, Op.insId] at h
    | Delete a c => cases d <;> rfl
  | owner o =>
    cases o with
    | Insert a c v => simp [ROp.rid, Op.insId] at h
    | Delete a c => cases d <;> rfl

theorem applyR_swap (u v : ROp) (hu : u.rid ≠ none) (hv : v.rid ≠ none)
    (huv : u.rid ≠ v.rid) (d : Data) :
    (d.applyR u).applyR v = (d.applyR v).applyR u := by
  cases u with
  | entry ou =>
    cases ou with
    | Delete a c => simp [ROp.rid, Op.insId] at hu
    | Insert ua uc uv2 =>
      cases v with
      | entry ov =>
        cases ov with
        | Delete a c => simp [ROp.rid, Op.insId] at hv
        | Insert va vc vv =>
          have hid : tagId (Tagged.mk ua uc uv2) ≠ tagId (Tagged.mk va vc vv) := by
            simp only [ROp.rid, Op.insId, Option.map_some', ne_eq, Option.some.injEq,
              Prod.mk.injEq, true_and] at huv
            simp only [tagId, ne_eq, Prod.mk.injEq]
            exact fun hc => huv ⟨hc.1, hc.2⟩
          cases d <;>
            simp [Data.applyR, Data.apply_crdt_op, SequenceCrdt.apply_crdt_op, applyOp,
              insertTagged_comm _ _ hid]
      | pubPerms ov =>
        cases ov with
        | Delete a c => simp [ROp.rid, Op.insId] at hv
        | Insert va vc vv => cases d <;> rfl
      | privPerms ov =>
        cases ov with
        | Delete a c => simp [ROp.rid, Op.insId] at hv
        | Insert va vc vv => cases d <;> rfl
      | owner ov =>
        cases ov with
        | Delete a c => simp [ROp.rid, Op.insId] at hv
        | Insert va vc vv => cases d <;> rfl
  | pubPerms ou =>
    cases ou with
    | Delete a c => simp [ROp.rid, Op.insId] at hu
    | Insert ua uc uv2 =>
      cases v with
      | entry ov =>
        cases ov with
        | Delete a c => simp [ROp.rid, Op.insId] at hv
        | Insert va vc vv => cases d <;> rfl
      | pubPerms ov =>
        cases ov with
        | Delete a c => simp [ROp.rid, Op.insId] at hv
        | Insert va vc vv =>
          have hid : tagId (Tagged.mk ua uc uv2) ≠ tagId (Tagged.mk va vc vv) := by
            simp only [ROp.rid, Op.insId, Option.map_some', ne_eq, Option.some.injEq,
              Prod.mk.injEq, true_and] at huv
            simp only [tagId, ne_eq, Prod.mk.injEq]
            exact fun hc => huv ⟨hc.1, hc.2⟩
          cases d with
          | Public data =>
            simp [Data.applyR, Data.apply_crdt_pub_perms_op,
              SequenceCrdt.apply_crdt_perms_op, applyOp, insertTagged_comm _ _ hid]
          | Private data => rfl
      | privPerms ov =>
        cases ov with
        | Delete a c => simp [ROp.rid, Op.insId] at hv
        | Insert va vc vv => cases d <;> rfl
      | owner ov =>
        cases ov with
        | Delete a c => simp [ROp.rid, Op.insId] at hv
        | Insert va vc vv => cases d <;> rfl
  | privPerms ou =>
    cases ou with
    | Delete a c => simp [ROp.rid, Op.insId] at hu
    | Insert ua uc uv2 =>
      cases v with
      | entry ov =>
        cases ov with
        | Delete a c => simp [ROp.rid, Op.insId] at hv
        | Insert va vc vv => cases d <;> rfl
      | pubPerms ov =>
        cases ov with
        | Delete a c => simp [ROp.rid, Op.insId] at hv
        | Insert va vc vv => cases d <;> rfl
      | privPerms ov =>
        cases ov with
        | Delete a c => simp [ROp.rid, Op.insId] at hv
        | Insert va vc vv =>
          have hid : tagId (Tagged.mk ua uc uv2) ≠ tagId (Tagged.mk va vc vv) := by
            simp only [ROp.rid, Op.insId, Option.map_some', ne_eq, Option.some.injEq,
              Prod.mk.injEq, true_and] at huv
            simp only [tagId, ne_eq, Prod.mk.injEq]
            exact fun hc => huv ⟨hc.1, hc.2⟩
          cases d with
          | Public data => rfl
          | Private data =>
            simp [Data.applyR, Data.apply_crdt_private_perms_op,
              SequenceCrdt.apply_crdt_perms_op, applyOp, insertTagged_comm _ _ hid]
      | owner ov =>
        cases ov with
        | Delete a c => simp [ROp.rid, Op.insId] at hv
        | Insert va vc vv => cases d <;> rfl
  | owner ou =>
    cases ou with
    | Delete a c => simp [ROp.rid, Op.insId] at hu
    | Insert ua uc uv2 =>
      cases v with
      | entry ov =>
        cases ov with
        | Delete a c => simp [ROp.rid, Op.insId] at hv
        | Insert va vc vv => cases d <;> rfl
      | pubPerms ov =>
        cases ov with
        | Delete a c => simp [ROp.rid, Op.insId] at hv
        | Insert va vc vv => cases d <;> rfl
      | privPerms ov =>
        cases ov with
        | Delete a c => simp [ROp.rid, Op.insId] at hv
        | Insert va vc vv => cases d <;> rfl
      | owner ov =>
        cases ov with
        | Delete a c => simp [ROp.rid, Op.insId] at hv
        | Insert va vc vv =>
          have hid : tagId (Tagged.mk ua uc uv2) ≠ tagId (Tagged.mk va vc vv) := by
            simp only [ROp.rid, Op.insId, Option.map_some', ne_eq, Option.some.injEq,
              Prod.mk.injEq, true_and] at huv
            simp only [tagId, ne_eq, Prod.mk.injEq]
            exact fun hc => huv ⟨hc.1, hc.2⟩
          cases d <;>
            simp [Data.applyR, Data.apply_crdt_owner_op, SequenceCrdt.apply_crdt_owner_op,
              applyOp, insertTagged_comm _ _ hid]

theorem applyR_idem (d : Data) (op : ROp) : (d.applyR op).applyR op = d.applyR op := by
  cases op with
  | entry o =>
    cases d <;>
      simp [Data.applyR, Data.apply_crdt_op, SequenceCrdt.apply_crdt_op, applyOp_idem]
  | pubPerms o =>
    cases o with
    | Insert a c v =>
      cases d with
      | Public data =>
        simp [Data.applyR, Data.apply_crdt_pub_perms_op, SequenceCrdt.apply_crdt_perms_op,
          applyOp, insertTagged_idem]
      | Private data => rfl
    | Delete a c => cases d <;> rfl
  | privPerms o =>
    cases d with
    | Public data => rfl
    | Private data =>
      simp [Data.applyR, Data.apply_crdt_private_perms_op, SequenceCrdt.apply_crdt_perms_op,
        applyOp_idem]
  | owner o =>
    cases d <;>
      simp [Data.applyR, Data.apply_crdt_owner_op, SequenceCrdt.apply_crdt_owner_op,
        applyOp_idem]

theorem ridUniq_of_perm {l1 l2 : List ROp} (p : l1.Perm l2) (h : ridUniq l1) :
    ridUniq l2 := by
  intro a ha b hb
  exact h a (p.symm.subset ha) b (p.symm.subset hb)

theorem ridUniq_cons {x : ROp} {l : List ROp} (h : ridUniq (x :: l)) : ridUniq l := by
  intro a ha b hb
  exact h a (List.mem_cons_of_mem _ ha) b (List.mem_cons_of_mem _ hb)

theorem applyAll_perm : ∀ {l1 l2 : List ROp}, l1.Perm l2 → ridUniq l1 →
    ∀ d : Data, d.applyAll l1 = d.applyAll l2 := by
  intro l1 l2 p
  induction p with
  | nil => intro h d; rfl
  | cons x p ih =>
    intro h d
    simp only [Data.applyAll, List.foldl_cons]
    exact ih (ridUniq_cons h) (d.applyR x)
  | swap x y l =>
    intro h d
    simp only [Data.applyAll, List.foldl_cons]
    have hcomm : (d.applyR y).applyR x = (d.applyR x).applyR y := by
      by_cases hxy : x = y
      · rw [hxy]
      · by_cases hx0 : x.rid = none
        · rw [applyR_rid_none _ _ hx0, applyR_rid_none _ _ hx0]
        · by_cases hy0 : y.rid = none
          · rw [applyR_rid_none _ _ hy0, applyR_rid_none _ _ hy0]
          · have hne : y.rid ≠ x.rid := by
              intro hEq
              exact hxy (h x (List.mem_cons_of_mem _ (List.mem_cons_self _ _))
                y (List.mem_cons_self _ _) hEq.symm hx0)
            exact applyR_swap y x hy0 hx0 hne d
    rw [hcomm]
  | trans p1 p2 ih1 ih2 =>
    intro h d
    rw [ih1 h d, ih2 (ridUniq_of_perm p1 h) d]

end SEQ

theorem AC.pubset_is_permitted_cmd (s : AC.PublicPermissionSet) (c : AC.CmdType) :
    s.is_permitted (AC.Request.Cmd c) = mapGet (AC.Request.Cmd c) s.permissions := by
  unfold AC.PublicPermissionSet.is_permitted
  cases h : mapGet (AC.Request.Cmd c) s.permissions with
  | none => simp [h]
  | some b => cases b <;> simp [h]

theorem AC.pub_aux_cmd (pp : AC.PublicPermissions) (u : AC.User) (c : AC.CmdType) :
    pp.is_permitted_ u (AC.Request.Cmd c) =
      Option.bind (mapGet u pp.permissions)
        (fun s => mapGet (AC.Request.Cmd c) s.permissions) := by
  unfold AC.PublicPermissions.is_permitted_
  cases h : mapGet u pp.permissions with
  | none => simp [h]
  | some s =>
    simp only [h, AC.pubset_is_permitted_cmd, Option.bind]
    cases h2 : mapGet (AC.Request.Cmd c) s.permissions with
    | none => simp [h2]
    | some b => cases b <;> simp [h2]

/-- C2: for every public-visibility object in every state and every
requester, `Data::check_permission` with `Action::Read` returns
`Ok(())`. -/
theorem public_read_always_ok (data : SEQ.SequenceCrdt SEQ.PublicPermissions)
    (requester : PublicKey) :
    (SEQ.Data.Public data).check_permission SEQ.Action.Read requester = Except.ok () := by
  simp [SEQ.Data.check_permission]

/-- C3: if the last owner of the object is `o`, then `check_permission`
returns `Ok(())` for `o.public_key` for every action, including actions
the latest permission snapshot denies: the owner bypasses permission
evaluation unconditionally. -/
theorem owner_bypass (d : SEQ.Data) (o : SEQ.Owner) (action : SEQ.Action)
    (h : d.owner (SEQ.Index.FromEnd 1) = some o) :
    d.check_permission action o.public_key = Except.ok () := by
  cases d with
  | Public data =>
    simp only [SEQ.Data.owner] at h
    have hcio : data.check_is_last_owner o.public_key = Except.ok () := by
      simp [SEQ.SequenceCrdt.check_is_last_owner, h]
    by_cases hr : action = SEQ.Action.Read
    · simp [SEQ.Data.check_permission, hr]
    · simp [SEQ.Data.check_permission, hr, SEQ.checkPermPub, hcio]
  | Private data =>
    simp only [SEQ.Data.owner] at h
    have hcio : data.check_is_last_owner o.public_key = Except.ok () := by
      simp [SEQ.SequenceCrdt.check_is_last_owner, h]
    simp [SEQ.Data.check_permission, SEQ.checkPermPriv, hcio]

/-- C3 witness: a private object whose last owner is key 9 while the
latest permission snapshot explicitly denies key 9 everything; the
append action is still permitted for key 9. -/
theorem owner_bypass_witness :
    (SEQ.Data.Private
        (SEQ.SequenceCrdt.mk 5 (SEQ.Address.Private 1 100) []
          [SEQ.Tagged.mk 5 1 (SEQ.PrivatePermissions.mk 0 0
            [(9, SEQ.PrivUserPermissions.mk false false false)])]
          [SEQ.Tagged.mk 5 1 (SEQ.Owner.mk 9 0 0)])).owner (SEQ.Index.FromEnd 1) =
      some (SEQ.Owner.mk 9 0 0) ∧
    (SEQ.Data.Private
        (SEQ.SequenceCrdt.mk 5 (SEQ.Address.Private 1 100) []
          [SEQ.Tagged.mk 5 1 (SEQ.PrivatePermissions.mk 0 0
            [(9, SEQ.PrivUserPermissions.mk false false false)])]
          [SEQ.Tagged.mk 5 1 (SEQ.Owner.mk 9 0 0)])).check_permission
        SEQ.Action.Append 9 = Except.ok () :=
  ⟨by decide, owner_bypass _ (SEQ.Owner.mk 9 0 0) SEQ.Action.Append (by decide)⟩

/-- C9: `PublicPermissionSet::is_permitted` answers `Some(true)` for
every query request regardless of the stored entries, so a concrete
entry mapping a read request to `false` has no effect: the read is still
permitted by `PublicPermissions::is_permitted`. -/
theorem public_query_always_some_true (s : AC.PublicPermissionSet) (q : AC.QueryType)
    (pp : AC.PublicPermissions) (K : PublicKey) (t : AC.PublicPermissionSet) :
    s.is_permitted (AC.Request.Query q) = some true ∧
    (mapGet (AC.User.Specific K) pp.permissions = some t →
      mapGet (AC.Request.Query q) t.permissions = some false →
      pp.is_permitted K (AC.Request.Query q) = true) := by
  constructor
  · rfl
  · intro h _
    unfold AC.PublicPermissions.is_permitted AC.PublicPermissions.is_permitted_
    rw [h]
    rfl

/-- C9 witness: a snapshot whose concrete entry for key 3 maps the
read-data query to `false`; the query is still permitted. -/
theorem public_query_always_some_true_witness :
    mapGet (AC.User.Specific 3)
        (AC.PublicPermissions.mk
          [(AC.User.Specific 3,
            AC.PublicPermissionSet.mk
              [(AC.Request.Query (AC.QueryType.Sequence AC.SequenceQuery.ReadData),
                false)])] 0 0).permissions =
      some (AC.PublicPermissionSet.mk
        [(AC.Request.Query (AC.QueryType.Sequence AC.SequenceQuery.ReadData), false)]) ∧
    mapGet (AC.Request.Query (AC.QueryType.Sequence AC.SequenceQuery.ReadData))
        (AC.PublicPermissionSet.mk
          [(AC.Request.Query (AC.QueryType.Sequence AC.SequenceQuery.ReadData),
            false)]).permissions = some false ∧
    (AC.PublicPermissions.mk
        [(AC.User.Specific 3,
          AC.PublicPermissionSet.mk
            [(AC.Request.Query (AC.QueryType.Sequence AC.SequenceQuery.ReadData),
              false)])] 0 0).is_permitted 3
      (AC.Request.Query (AC.QueryType.Sequence AC.SequenceQuery.ReadData)) = true :=
  ⟨by decide, by decide,
    (public_query_always_some_true
      (AC.PublicPermissionSet.mk
        [(AC.Request.Query (AC.QueryType.Sequence AC.SequenceQuery.ReadData), false)])
      (AC.QueryType.Sequence AC.SequenceQuery.ReadData)
      (AC.PublicPermissions.mk
        [(AC.User.Specific 3,
          AC.PublicPermissionSet.mk
            [(AC.Request.Query (AC.QueryType.Sequence AC.SequenceQuery.ReadData),
              false)])] 0 0)
      3
      (AC.PublicPermissionSet.mk
        [(AC.Request.Query (AC.QueryType.Sequence AC.SequenceQuery.ReadData),
          false)])).2 (by decide) (by decide)⟩

/-- C7: `PrivatePermissions::is_permitted` answers `true` exactly when
the requester has an entry whose per-request map stores `true` for the
request; an unlisted requester, an unlisted request, or an explicit
`false` all deny. -/
theorem private_default_deny (pp : AC.PrivatePermissions) (K : PublicKey)
    (R : AC.Request) :
    pp.is_permitted K R = true ↔
      ∃ s : AC.PrivatePermissionSet,
        mapGet K pp.permissions = some s ∧
        mapGet R s.permissions = some true := by
  unfold AC.PrivatePermissions.is_permitted
  cases h : mapGet K pp.permissions with
  | none => simp [h]
  | some s =>
    simp only [h, Option.some.injEq]
    unfold AC.PrivatePermissionSet.is_permitted
    cases h2 : mapGet R s.permissions with
    | none => simp [h2]
    | some b => cases b <;> simp [h2]

/-- C4: for a non-read request, a flag stored in the requester's
concrete entry alone decides the outcome; when the concrete entry is
absent or leaves the request unset, the `Anyone` entry's flag decides;
when that is also absent or unset the request is denied.  The fallback
never goes from `Anyone` to the concrete entry. -/
theorem public_fallback_precedence (pp : AC.PublicPermissions) (K : PublicKey)
    (c : AC.CmdType) :
    (∀ (s : AC.PublicPermissionSet) (b : Bool),
        mapGet (AC.User.Specific K) pp.permissions = some s →
        mapGet (AC.Request.Cmd c) s.permissions = some b →
        pp.is_permitted K (AC.Request.Cmd c) = b) ∧
    (∀ (t : AC.PublicPermissionSet) (b : Bool),
        Option.bind (mapGet (AC.User.Specific K) pp.permissions)
          (fun s => mapGet (AC.Request.Cmd c) s.permissions) = none →
        mapGet AC.User.Anyone pp.permissions = some t →
        mapGet (AC.Request.Cmd c) t.permissions = some b →
        pp.is_permitted K (AC.Request.Cmd c) = b) ∧
    (Option.bind (mapGet (AC.User.Specific K) pp.permissions)
        (fun s => mapGet (AC.Request.Cmd c) s.permissions) = none →
      Option.bind (mapGet AC.User.Anyone pp.permissions)
        (fun t => mapGet (AC.Request.Cmd c) t.permissions) = none →
      pp.is_permitted K (AC.Request.Cmd c) = false) := by
  refine ⟨?_, ?_, ?_⟩
  · intro s b h1 h2
    unfold AC.PublicPermissions.is_permitted
    rw [AC.pub_aux_cmd pp (AC.User.Specific K) c, h1]
    cases b <;> simp [h2]
  · intro t b hn ha hb
    unfold AC.PublicPermissions.is_permitted
    rw [AC.pub_aux_cmd pp (AC.User.Specific K) c, hn,
      AC.pub_aux_cmd pp AC.User.Anyone c, ha]
    cases b <;> simp [hb]
  · intro hn1 hn2
    unfold AC.PublicPermissions.is_permitted
    rw [AC.pub_aux_cmd pp (AC.User.Specific K) c, hn1,
      AC.pub_aux_cmd pp AC.User.Anyone c, hn2]

/-- C4 witness: `Anyone` allows append but the concrete entry of key 5
denies it; the concrete flag wins and the request is denied. -/
theorem public_fallback_precedence_witness :
    mapGet (AC.User.Specific 5)
        (AC.PublicPermissions.mk
          [(AC.User.Anyone,
            AC.PublicPermissionSet.mk
              [(AC.Request.Cmd (AC.CmdType.Sequence AC.SequenceCmd.Append), true)]),
          (AC.User.Specific 5,
            AC.PublicPermissionSet.mk
              [(AC.Request.Cmd (AC.CmdType.Sequence AC.SequenceCmd.Append), false)])]
          0 0).permissions =
      some (AC.PublicPermissionSet.mk
        [(AC.Request.Cmd (AC.CmdType.Sequence AC.SequenceCmd.Append), false)]) ∧
    mapGet (AC.Request.Cmd (AC.CmdType.Sequence AC.SequenceCmd.Append))
        (AC.PublicPermissionSet.mk
          [(AC.Request.Cmd (AC.CmdType.Sequence AC.SequenceCmd.Append),
            false)]).permissions = some false ∧
    (AC.PublicPermissions.mk
        [(AC.User.Anyone,
          AC.PublicPermissionSet.mk
            [(AC.Request.Cmd (AC.CmdType.Sequence AC.SequenceCmd.Append), true)]),
        (AC.User.Specific 5,
          AC.PublicPermissionSet.mk
            [(AC.Request.Cmd (AC.CmdType.Sequence AC.SequenceCmd.Append), false)])]
        0 0).is_permitted 5
      (AC.Request.Cmd (AC.CmdType.Sequence AC.SequenceCmd.Append)) = false :=
  ⟨by decide, by decide,
    (public_fallback_precedence
      (AC.PublicPermissions.mk
        [(AC.User.Anyone,
          AC.PublicPermissionSet.mk
            [(AC.Request.Cmd (AC.CmdType.Sequence AC.SequenceCmd.Append), true)]),
        (AC.User.Specific 5,
          AC.PublicPermissionSet.mk
            [(AC.Request.Cmd (AC.CmdType.Sequence AC.SequenceCmd.Append), false)])]
        0 0) 5 (AC.CmdType.Sequence AC.SequenceCmd.Append)).1
      (AC.PublicPermissionSet.mk
        [(AC.Request.Cmd (AC.CmdType.Sequence AC.SequenceCmd.Append), false)])
      false (by decide) (by decide)⟩

/-- C10: with an empty permission history, `check_permission` never
surfaces the invalid-owners error: when the owner check fails (for any
reason, including an empty owner history) the result is access denied,
except that the public variant permits `Read`. -/
theorem empty_perms_no_invalid_owners (d : SEQ.Data) (hp : d.permissions_index = 0)
    (action : SEQ.Action) (requester : PublicKey) :
    d.check_permission action requester ≠ Except.error Error.InvalidOwners ∧
    (∀ e : Error, d.check_is_last_owner requester = Except.error e →
      d.check_permission action requester =
        if d.isPublicVariant = true ∧ action = SEQ.Action.Read then Except.ok ()
        else Except.error Error.AccessDenied) := by
  cases d with
  | Public data =>
    have hlen : data.perms = [] := by
      simp only [SEQ.Data.permissions_index, SEQ.SequenceCrdt.permissions_index] at hp
      exact List.length_eq_zero.mp hp
    have hnone : data.permissions (SEQ.Index.FromEnd 1) = none := by
      simp [SEQ.SequenceCrdt.permissions, SEQ.listGetIdx, SEQ.seqOf, hlen]
    constructor
    · by_cases hr : action = SEQ.Action.Read
      · simp [SEQ.Data.check_permission, hr]
      · cases hcio : data.check_is_last_owner requester with
        | ok u => simp [SEQ.Data.check_permission, hr, SEQ.checkPermPub, hcio]
        | error e => simp [SEQ.Data.check_permission, hr, SEQ.checkPermPub, hcio, hnone]
    · intro e he
      simp only [SEQ.Data.check_is_last_owner] at he
      by_cases hr : action = SEQ.Action.Read
      · simp [SEQ.Data.check_permission, hr, SEQ.Data.isPublicVariant]
      · simp [SEQ.Data.check_permission, hr, SEQ.checkPermPub, he, hnone,
          SEQ.Data.isPublicVariant]
  | Private data =>
    have hlen : data.perms = [] := by
      simp only [SEQ.Data.permissions_index, SEQ.SequenceCrdt.permissions_index] at hp
      exact List.length_eq_zero.mp hp
    have hnone : data.permissions (SEQ.Index.FromEnd 1) = none := by
      simp [SEQ.SequenceCrdt.permissions, SEQ.listGetIdx, SEQ.seqOf, hlen]
    constructor
    · cases hcio : data.check_is_last_owner requester with
      | ok u => simp [SEQ.Data.check_permission, SEQ.checkPermPriv, hcio]
      | error e => simp [SEQ.Data.check_permission, SEQ.checkPermPriv, hcio, hnone]
    · intro e he
      simp only [SEQ.Data.check_is_last_owner] at he
      simp [SEQ.Data.check_permission, SEQ.checkPermPriv, he, hnone,
        SEQ.Data.isPublicVariant]

/-- C10 witness: a fresh private object (both histories empty): the
owner check fails with the invalid-owners error, yet `check_permission`
answers access denied, not invalid owners. -/
theorem empty_perms_no_invalid_owners_witness :
    (SEQ.Data.new_private 4 2 30).permissions_index = 0 ∧
    (SEQ.Data.new_private 4 2 30).check_is_last_owner 8 =
      Except.error Error.InvalidOwners ∧
    (SEQ.Data.new_private 4 2 30).check_permission SEQ.Action.Append 8 ≠
      Except.error Error.InvalidOwners ∧
    (SEQ.Data.new_private 4 2 30).check_permission SEQ.Action.Append 8 =
      Except.error Error.AccessDenied :=
  ⟨by decide, rfl,
    (empty_perms_no_invalid_owners (SEQ.Data.new_private 4 2 30) (by decide)
      SEQ.Action.Append 8).1,
    by
      have h := (empty_perms_no_invalid_owners (SEQ.Data.new_private 4 2 30) (by decide)
        SEQ.Action.Append 8).2 Error.InvalidOwners rfl
      simpa using h⟩

/-- C1: appending a permission or owner snapshot whose declared expected
indices do not match the current history lengths is rejected with the
invalid-expected-index error and leaves the object (hence all three
history lengths) unchanged; with the correct expected indices the append
succeeds and grows exactly the targeted history by one. -/
theorem sentried_concurrency_guard (s : AC.PrivateSentriedSequence)
    (p : AC.PrivatePermissions) (i : Nat) (o : AC.Owner) (j : Nat) :
    (¬(p.expected_data_index = s.data.length ∧
        p.expected_owners_index = s.owners.length) →
      (s.set_permissions p i).1 = Except.error Error.InvalidExpectedIndex ∧
      (s.set_permissions p i).2 = s) ∧
    (p.expected_data_index = s.data.length →
      p.expected_owners_index = s.owners.length →
      i = s.permissions.length →
      (s.set_permissions p i).1 = Except.ok () ∧
      (s.set_permissions p i).2.permissions.length = s.permissions.length + 1 ∧
      (s.set_permissions p i).2.data = s.data ∧
      (s.set_permissions p i).2.owners = s.owners) ∧
    (¬(o.expected_data_index = s.data.length ∧
        o.expected_permissions_index = s.permissions.length) →
      (s.set_owner o j).1 = Except.error Error.InvalidExpectedIndex ∧
      (s.set_owner o j).2 = s) ∧
    (o.expected_data_index = s.data.length →
      o.expected_permissions_index = s.permissions.length →
      j = s.owners.length →
      (s.set_owner o j).1 = Except.ok () ∧
      (s.set_owner o j).2.owners.length = s.owners.length + 1 ∧
      (s.set_owner o j).2.data = s.data ∧
      (s.set_owner o j).2.permissions = s.permissions) := by
  refine ⟨?_, ?_, ?_, ?_⟩
  · intro h
    have hcond : ¬(p.expected_data_index = s.data.length ∧
        p.expected_owners_index = s.owners.length ∧ i = s.permissions.length) := by
      intro hc
      exact h ⟨hc.1, hc.2.1⟩
    simp [AC.PrivateSentriedSequence.set_permissions, hcond]
  · intro h1 h2 h3
    simp [AC.PrivateSentriedSequence.set_permissions, h1, h2, h3]
  · intro h
    have hcond : ¬(o.expected_data_index = s.data.length ∧
        o.expected_permissions_index = s.permissions.length ∧ j = s.owners.length) := by
      intro hc
      exact h ⟨hc.1, hc.2.1⟩
    simp [AC.PrivateSentriedSequence.set_owner, hcond]
  · intro h1 h2 h3
    simp [AC.PrivateSentriedSequence.set_owner, h1, h2, h3]

/-- C1 witness: on an empty object, a snapshot declaring
`expected_data_index = 64` is rejected and the object is unchanged,
while a snapshot with the correct indices is appended, growing the
permission history to length one. -/
theorem sentried_concurrency_guard_witness :
    ((AC.PrivateSentriedSequence.mk [] [] []).set_permissions
        (AC.PrivatePermissions.mk [] 64 0) 1).1 =
      Except.error Error.InvalidExpectedIndex ∧
    ((AC.PrivateSentriedSequence.mk [] [] []).set_permissions
        (AC.PrivatePermissions.mk [] 64 0) 1).2 =
      AC.PrivateSentriedSequence.mk [] [] [] ∧
    ((AC.PrivateSentriedSequence.mk [] [] []).set_permissions
        (AC.PrivatePermissions.mk [] 0 0) 0).1 = Except.ok () ∧
    ((AC.PrivateSentriedSequence.mk [] [] []).set_permissions
        (AC.PrivatePermissions.mk [] 0 0) 0).2.permissions.length = 1 :=
  ⟨((sentried_concurrency_guard (AC.PrivateSentriedSequence.mk [] [] [])
      (AC.PrivatePermissions.mk [] 64 0) 1 (AC.Owner.mk 0 0 0) 0).1 (by decide)).1,
    ((sentried_concurrency_guard (AC.PrivateSentriedSequence.mk [] [] [])
      (AC.PrivatePermissions.mk [] 64 0) 1 (AC.Owner.mk 0 0 0) 0).1 (by decide)).2,
    ((sentried_concurrency_guard (AC.PrivateSentriedSequence.mk [] [] [])
      (AC.PrivatePermissions.mk [] 0 0) 0 (AC.Owner.mk 0 0 0) 0).2.1 rfl rfl rfl).1,
    by
      have h := ((sentried_concurrency_guard (AC.PrivateSentriedSequence.mk [] [] [])
        (AC.PrivatePermissions.mk [] 0 0) 0 (AC.Owner.mk 0 0 0) 0).2.1 rfl rfl rfl).2.1
      simpa using h⟩

/-- C5 counterexample: delivering a public-permissions merge operation
to a private object surfaces an invalid-operation error to the caller of
the apply function, so remote-merge application is not error-free. -/
theorem merge_mismatch_error_cex :
    (SEQ.Data.new_private 0 1 20).apply_crdt_pub_perms_op
        (SEQ.Op.Insert 0 1 (SEQ.PublicPermissions.mk 0 0 [])) =
      Except.error Error.InvalidOperation := rfl

/-- C5 amended: entry and owner merge application returns no error and
absorbs duplicate delivery as a no-op, but permission merge application
surfaces an invalid-operation error to the caller when the operation's
visibility variant does not match the object. -/
theorem merge_error_surface :
    (∀ (c : SEQ.SequenceCrdt SEQ.PrivatePermissions)
        (op : SEQ.Op SEQ.PublicPermissions),
        (SEQ.Data.Private c).apply_crdt_pub_perms_op op =
          Except.error Error.InvalidOperation) ∧
    (∀ (c : SEQ.SequenceCrdt SEQ.PublicPermissions)
        (op : SEQ.Op SEQ.PrivatePermissions),
        (SEQ.Data.Public c).apply_crdt_private_perms_op op =
          Except.error Error.InvalidOperation) ∧
    (∀ (d : SEQ.Data) (op : SEQ.Op Entry),
        (d.apply_crdt_op op).apply_crdt_op op = d.apply_crdt_op op) ∧
    (∀ (d : SEQ.Data) (op : SEQ.Op SEQ.Owner),
        (d.apply_crdt_owner_op op).apply_crdt_owner_op op = d.apply_crdt_owner_op op) := by
  refine ⟨?_, ?_, ?_, ?_⟩
  · intro c op
    cases op <;> rfl
  · intro c op
    rfl
  · intro d op
    cases d <;>
      simp [SEQ.Data.apply_crdt_op, SEQ.SequenceCrdt.apply_crdt_op, SEQ.applyOp_idem]
  · intro d op
    cases d <;>
      simp [SEQ.Data.apply_crdt_owner_op, SEQ.SequenceCrdt.apply_crdt_owner_op,
        SEQ.applyOp_idem]

/-- C6 counterexample: on a public object, requesting the private
permission variant fails with the invalid-operation kind, not the
no-such-data kind the claim names. -/
theorem variant_mismatch_error_cex :
    (SEQ.Data.new_pub 0 1 20).private_permissions (SEQ.Index.FromStart 0) =
      Except.error Error.InvalidOperation ∧
    (SEQ.Data.new_pub 0 1 20).private_permissions (SEQ.Index.FromStart 0) ≠
      Except.error Error.NoSuchData :=
  ⟨rfl, by
    intro h
    rw [show (SEQ.Data.new_pub 0 1 20).private_permissions (SEQ.Index.FromStart 0) =
      Except.error Error.InvalidOperation from rfl] at h
    exact absurd (Except.error.inj h) (by decide)⟩

/-- C6 amended: requesting the permission-set variant that does not
match the object's visibility fails with the invalid-operation kind,
which is distinct from the no-such-entry kind used for an out-of-range
index. -/
theorem variant_mismatch_error_kinds :
    (∀ (c : SEQ.SequenceCrdt SEQ.PrivatePermissions) (i : SEQ.Index),
        (SEQ.Data.Private c).pub_permissions i =
          Except.error Error.InvalidOperation) ∧
    (∀ (c : SEQ.SequenceCrdt SEQ.PublicPermissions) (i : SEQ.Index),
        (SEQ.Data.Public c).private_permissions i =
          Except.error Error.InvalidOperation) ∧
    (∀ (c : SEQ.SequenceCrdt SEQ.PublicPermissions) (i : SEQ.Index),
        c.permissions i = none →
        (SEQ.Data.Public c).pub_permissions i = Except.error Error.NoSuchEntry) ∧
    (∀ (c : SEQ.SequenceCrdt SEQ.PrivatePermissions) (i : SEQ.Index),
        c.permissions i = none →
        (SEQ.Data.Private c).private_permissions i = Except.error Error.NoSuchEntry) ∧
    Error.InvalidOperation ≠ Error.NoSuchEntry := by
  refine ⟨fun c i => rfl, fun c i => rfl, ?_, ?_, by decide⟩
  · intro c i h
    simp [SEQ.Data.pub_permissions, h]
  · intro c i h
    simp [SEQ.Data.private_permissions, h]

/-- C6 witness: an empty public object has no permission snapshot at
absolute index 5, so the lookup fails with the no-such-entry kind. -/
theorem variant_mismatch_error_kinds_witness :
    (SEQ.SequenceCrdt.new 0 (SEQ.Address.Public 1 20) :
        SEQ.SequenceCrdt SEQ.PublicPermissions).permissions
      (SEQ.Index.FromStart 5) = none ∧
    (SEQ.Data.Public (SEQ.SequenceCrdt.new 0 (SEQ.Address.Public 1 20))).pub_permissions
      (SEQ.Index.FromStart 5) = Except.error Error.NoSuchEntry :=
  ⟨rfl,
    variant_mismatch_error_kinds.2.2.1
      (SEQ.SequenceCrdt.new 0 (SEQ.Address.Public 1 20)) (SEQ.Index.FromStart 5) rfl⟩

/-- C8: two replicas that start from the same state and receive the same
well-formed set of causal operations in any order end up equal: same
entry contents and the same entries, permissions and owners history
lengths; delivering the same operation twice is a no-op. -/
theorem replica_convergence (l1 l2 : List SEQ.ROp) (hp : l1.Perm l2)
    (hu : SEQ.ridUniq l1) (d : SEQ.Data) :
    d.applyAll l1 = d.applyAll l2 ∧
    (d.applyAll l1).entries_index = (d.applyAll l2).entries_index ∧
    (d.applyAll l1).permissions_index = (d.applyAll l2).permissions_index ∧
    (d.applyAll l1).owners_index = (d.applyAll l2).owners_index ∧
    (∀ i : SEQ.Index, (d.applyAll l1).get i = (d.applyAll l2).get i) ∧
    (∀ (op : SEQ.ROp) (e : SEQ.Data), (e.applyR op).applyR op = e.applyR op) := by
  have hEq := SEQ.applyAll_perm hp hu d
  exact ⟨hEq, by rw [hEq], by rw [hEq], by rw [hEq], fun i => by rw [hEq],
    fun op e => SEQ.applyR_idem e op⟩

/-- C8 witness: two entry appends by actor 7 delivered to a fresh public
replica in opposite orders give the same state. -/
theorem replica_convergence_witness :
    SEQ.ridUniq
      [SEQ.ROp.entry (SEQ.Op.Insert 7 1 [0]), SEQ.ROp.entry (SEQ.Op.Insert 7 2 [1])] ∧
    (SEQ.Data.new_pub 7 1 43).applyAll
        [SEQ.ROp.entry (SEQ.Op.Insert 7 1 [0]), SEQ.ROp.entry (SEQ.Op.Insert 7 2 [1])] =
      (SEQ.Data.new_pub 7 1 43).applyAll
        [SEQ.ROp.entry (SEQ.Op.Insert 7 2 [1]), SEQ.ROp.entry (SEQ.Op.Insert 7 1 [0])] :=
  ⟨by
    unfold SEQ.ridUniq
    decide,
    (replica_convergence
      [SEQ.ROp.entry (SEQ.Op.Insert 7 1 [0]), SEQ.ROp.entry (SEQ.Op.Insert 7 2 [1])]
      [SEQ.ROp.entry (SEQ.Op.Insert 7 2 [1]), SEQ.ROp.entry (SEQ.Op.Insert 7 1 [0])]
      (List.Perm.swap _ _ _)
      (by
        unfold SEQ.ridUniq
        decide)
      (SEQ.Data.new_pub 7 1 43)).1⟩
